import Mathlib

/-
Verification of the pygame presentation layer of a Minesweeper game
(`run.py`).  The module under study owns the session orchestration:
timer lifecycle, end-of-game freezing, difficulty switching, a lazily
expiring highlight set, pixel-to-grid input mapping, and per-frame
rendering decisions.  The grid rules themselves live in an external
collaborator (`components.Board`), available here only through its
contract; likewise the `config` module holds geometry constants and the
mutable difficulty configuration.  Both are modelled from the spec where
their code is not part of the given sources.
-/

set_option autoImplicit false

namespace Minesweeper

/-- Modelled from the spec: the observable state of one cell of the
external Grid Model (`components.Board`), as the contract exposes it:
`is_revealed`, `is_mine`, `is_flagged`, `adjacent`. -/
structure CellState where
  isRevealed : Bool
  isMine : Bool
  isFlagged : Bool
  adjacent : Nat
deriving DecidableEq

/-- Modelled from the spec: the external Grid Model (`components.Board`)
contract.  The orchestrator reads `cols`, `rows`, a cell lookup by
(column, row), `neighbors`, `flagged_count`, `get_hint_coordinates`, and
the flags `game_over` / `win`.  The cell lookup `board.cells[board.index(c,r)]`
is modelled directly as a function of the coordinate pair; mine placement,
adjacency counts and flood reveal are the Grid Model's own rules and stay
behind this interface. -/
structure Board where
  cols : Nat
  rows : Nat
  cellAt : Int → Int → CellState
  neighbors : Int → Int → Finset (Int × Int)
  flaggedCount : Nat
  hintCoords : Option (Int × Int)
  gameOver : Bool
  win : Bool

/-- Modelled from the spec: the mouse button codes `config.mouse_left`,
`config.mouse_right`, `config.mouse_middle` (`config.py` is not among the
given sources).  They are three distinct constants — primary, secondary,
tertiary — so they are modelled as an enumeration, with `other` for any
further button code. -/
inductive Button where
  | left
  | right
  | middle
  | other
deriving DecidableEq

/-- Modelled from the spec: the keyboard surface: `R` resets, `1`/`2`/`3`
select a difficulty, `H` requests a hint. -/
inductive Key where
  | r
  | one
  | two
  | three
  | h
deriving DecidableEq

/-- Modelled from the spec: the `config` module (not among the given
sources).  Margins and cell size are fixed constants; `cols`, `rows`,
`num_mines`, `width`, `height` are module-level mutable configuration
rewritten by `Game.set_difficulty`. -/
structure Config where
  marginLeft : Nat
  marginRight : Nat
  marginTop : Nat
  marginBottom : Nat
  cellSize : Nat
  highlightDurationMs : Nat
  cols : Nat
  rows : Nat
  numMines : Nat
  width : Nat
  height : Nat
deriving DecidableEq

/-- The session state owned by `Game` (`run.py`), together with the
mutable part of `config` that `Game` rewrites.  `highlight_targets` is a
Python set of coordinate pairs; the tick counters are milliseconds, with
`0` doubling as the absent value for `end_ticks_ms`. -/
structure Game where
  cfg : Config
  board : Board
  highlightTargets : Finset (Int × Int)
  highlightUntilMs : Nat
  started : Bool
  startTicksMs : Nat
  endTicksMs : Nat

/-- `Game.reset` (run.py:176-184): construct a fresh board from the
current configuration, clear the highlight set and its expiry, clear the
session clock.  The Grid Model constructor is the external collaborator,
passed in as `mkBoard`. -/
def Game.reset (mkBoard : Nat → Nat → Nat → Board) (g : Game) : Game :=
  { g with
    board := mkBoard g.cfg.cols g.cfg.rows g.cfg.numMines
    highlightTargets := ∅
    highlightUntilMs := 0
    started := false
    startTicksMs := 0
    endTicksMs := 0 }

/-- `Game.set_difficulty` (run.py:187-198): overwrite the mutable
configuration, recompute window geometry from the fixed margins and cell
size, resize the display surface (a Canvas effect, outside this model),
then `reset`. -/
def Game.setDifficulty (mkBoard : Nat → Nat → Nat → Board) (g : Game)
    (cols rows mines : Nat) : Game :=
  let cfg0 := { g.cfg with cols := cols, rows := rows, numMines := mines }
  let cfg1 := { cfg0 with
    width := cfg0.marginLeft + cols * cfg0.cellSize + cfg0.marginRight
    height := cfg0.marginTop + rows * cfg0.cellSize + cfg0.marginBottom }
  Game.reset mkBoard { g with cfg := cfg1 }

/-- `Game._elapsed_ms` (run.py:200-206): 0 before the first reveal; the
frozen difference once `end_ticks_ms` is truthy (nonzero); otherwise the
running difference against the current tick, passed here as `now`. -/
def Game.elapsedMs (g : Game) (now : Nat) : Int :=
  if !g.started then 0
  else if g.endTicksMs ≠ 0 then (g.endTicksMs : Int) - (g.startTicksMs : Int)
  else (now : Int) - (g.startTicksMs : Int)

/-- The end-of-game check inside `Game.run_step` (run.py:276-277): when
the board reports `game_over` or `win`, the session has started, and
`end_ticks_ms` is falsy (zero), record the current tick as the end. -/
def Game.endCheck (g : Game) (now : Nat) : Game :=
  if (g.board.gameOver || g.board.win) && g.started && g.endTicksMs == 0 then
    { g with endTicksMs := now }
  else g

/-- `InputController.pos_to_grid` (run.py:115-125): reject positions
outside the playing-field rectangle read from `config`, compute cell
indices by floor division, and re-validate against the live board's
bounds; `(-1, -1)` is the invalid sentinel.  Python `//` is floor
division, hence `Int.fdiv`. -/
def posToGrid (g : Game) (x y : Int) : Int × Int :=
  if ¬((g.cfg.marginLeft : Int) ≤ x ∧ x < (g.cfg.width : Int) - (g.cfg.marginRight : Int)) then
    (-1, -1)
  else if ¬((g.cfg.marginTop : Int) ≤ y ∧ y < (g.cfg.height : Int) - (g.cfg.marginBottom : Int)) then
    (-1, -1)
  else
    let col := Int.fdiv (x - (g.cfg.marginLeft : Int)) (g.cfg.cellSize : Int)
    let row := Int.fdiv (y - (g.cfg.marginTop : Int)) (g.cfg.cellSize : Int)
    if 0 ≤ col ∧ col < (g.board.cols : Int) ∧ 0 ≤ row ∧ row < (g.board.rows : Int) then
      (col, row)
    else (-1, -1)

/-- `InputController.handle_mouse` (run.py:127-157): resolve the grid
cell, bail out when the column is the sentinel, then dispatch on the
button: left clears the highlight set, starts the clock on the first
reveal and forwards `reveal`; right clears the highlight set and forwards
`toggle_flag`; middle replaces the highlight set with the unrevealed
neighbors of the cell and arms a fresh expiry.  The Grid Model mutators
are the external collaborator, passed in as `revealFn` and `toggleFn`;
`now` is `pygame.time.get_ticks()` at the moment of handling. -/
def handleMouse (revealFn toggleFn : Board → Int → Int → Board)
    (g : Game) (now : Nat) (x y : Int) (button : Button) : Game :=
  let cr := posToGrid g x y
  let col := cr.1
  let row := cr.2
  if col = -1 then g
  else if button = Button.left then
    let g1 := { g with highlightTargets := ∅ }
    let g2 :=
      if !g1.started then
        { g1 with started := true, startTicksMs := now }
      else g1
    { g2 with board := revealFn g2.board col row }
  else if button = Button.right then
    let g1 := { g with highlightTargets := ∅ }
    { g1 with board := toggleFn g1.board col row }
  else if button = Button.middle then
    { g with
      highlightTargets :=
        (g.board.neighbors col row).filter
          (fun p => (g.board.cellAt p.1 p.2).isRevealed = false)
      highlightUntilMs := now + g.cfg.highlightDurationMs }
  else g

/-- The keydown handling inside `Game.run_step` (run.py:255-273): `R`
resets; `1`/`2`/`3` set a difficulty tier and reset once more; `H` asks
the board for a hint coordinate and, when one is returned (Python
truthiness: a coordinate pair is always truthy, `None` is falsy),
replaces the highlight set with that singleton and arms the expiry. -/
def Game.handleKey (mkBoard : Nat → Nat → Nat → Board) (g : Game)
    (now : Nat) (k : Key) : Game :=
  match k with
  | Key.r => Game.reset mkBoard g
  | Key.one => Game.reset mkBoard (Game.setDifficulty mkBoard g 9 9 10)
  | Key.two => Game.reset mkBoard (Game.setDifficulty mkBoard g 16 16 40)
  | Key.three => Game.reset mkBoard (Game.setDifficulty mkBoard g 24 24 99)
  | Key.h =>
    match g.board.hintCoords with
    | some c =>
      { g with
        highlightTargets := {c}
        highlightUntilMs := now + g.cfg.highlightDurationMs }
    | none => g

/-- The lazy physical clearing at the top of `Game.draw` (run.py:226-227):
when the current tick is past the expiry and the set is nonempty, clear
it in place. -/
def Game.drawClearExpired (g : Game) (now : Nat) : Game :=
  if g.highlightUntilMs < now ∧ g.highlightTargets ≠ ∅ then
    { g with highlightTargets := ∅ }
  else g

/-- The per-cell highlight decision in `Game.draw` (run.py:245): a cell
is drawn highlighted when the current tick has not passed the expiry and
its coordinate is in the highlight set. -/
def Game.cellHighlighted (g : Game) (now : Nat) (c r : Int) : Bool :=
  decide (now ≤ g.highlightUntilMs) && decide ((c, r) ∈ g.highlightTargets)

/-- The remaining-mine figure in `Game.draw` (run.py:229):
`max(0, config.num_mines - board.flagged_count())`, over Python's signed
integers. -/
def Game.remainingMines (g : Game) : Int :=
  max 0 ((g.cfg.numMines : Int) - (g.board.flaggedCount : Int))

/-- The difficulty label in `Game.draw` (run.py:233-238), chosen by the
live board's column count. -/
def Game.diffText (g : Game) : String :=
  if g.board.cols = 9 then "EASY"
  else if g.board.cols = 16 then "NORMAL"
  else "HARD"

/-- `Game._format_time` (run.py:208-214): milliseconds to
`mm:ss (Ns)`; Python `//` and `%` are floor division and floor modulus. -/
def Game.formatTime (ms : Int) : String :=
  let totalSeconds := Int.fdiv ms 1000
  let minutes := Int.fdiv totalSeconds 60
  let seconds := Int.fmod totalSeconds 60
  let pad := fun (n : Int) => if 0 ≤ n ∧ n < 10 then "0" ++ toString n else toString n
  pad minutes ++ ":" ++ pad seconds ++ " (" ++ toString totalSeconds ++ "s)"

/-- `Game._result_text` (run.py:216-222): the overlay label, `game_over`
taking precedence. -/
def Game.resultText (g : Game) : Option String :=
  if g.board.gameOver then some "GAME OVER"
  else if g.board.win then some "GAME CLEAR"
  else none

/-- The playing-field rectangle tested by `pos_to_grid` (run.py:117-120):
margins on the left and top, window extent minus margins on the right and
bottom. -/
def inPlayRect (cfg : Config) (x y : Int) : Bool :=
  decide ((cfg.marginLeft : Int) ≤ x) &&
  decide (x < (cfg.width : Int) - (cfg.marginRight : Int)) &&
  decide ((cfg.marginTop : Int) ≤ y) &&
  decide (y < (cfg.height : Int) - (cfg.marginBottom : Int))

/-- A hidden, unflagged, non-mine cell, used for concrete instances. -/
def sampleCell : CellState :=
  { isRevealed := false, isMine := false, isFlagged := false, adjacent := 0 }

/-- A concrete fresh 9×9 board instance of the Grid Model contract. -/
def sampleBoard : Board :=
  { cols := 9, rows := 9, cellAt := fun _ _ => sampleCell,
    neighbors := fun _ _ => ∅, flaggedCount := 0, hintCoords := none,
    gameOver := false, win := false }

/-- A concrete EASY configuration: margins 10/10/50/10, cell size 30,
9×9 grid with 10 mines, window 290×330. -/
def sampleConfig : Config :=
  { marginLeft := 10, marginRight := 10, marginTop := 50, marginBottom := 10,
    cellSize := 30, highlightDurationMs := 1500,
    cols := 9, rows := 9, numMines := 10, width := 290, height := 330 }

/-- A concrete freshly constructed EASY session. -/
def sampleGame : Game :=
  { cfg := sampleConfig, board := sampleBoard, highlightTargets := ∅,
    highlightUntilMs := 0, started := false, startTicksMs := 0, endTicksMs := 0 }

/-- A concrete Grid Model `reveal` implementation for instances. -/
def sampleReveal : Board → Int → Int → Board := fun b _ _ => b

/-- A concrete Grid Model `toggle_flag` implementation for instances. -/
def sampleToggle : Board → Int → Int → Board := fun b _ _ => b

/-- A concrete Grid Model constructor for instances. -/
def sampleMkBoard : Nat → Nat → Nat → Board := fun c r _ =>
  { sampleBoard with cols := c, rows := r }

/-- A session whose board has just reported `game_over` while the clock
reads tick 0 throughout. -/
def overGame : Game :=
  { sampleGame with board := { sampleBoard with gameOver := true }, started := true }

/-- The one-coordinate highlight set of `expiredGame`. -/
def expiredTargets : Finset (Int × Int) := {(1, 1)}

/-- A running session whose highlight set holds one cell and has expired. -/
def expiredGame : Game :=
  { sampleGame with highlightTargets := expiredTargets, highlightUntilMs := 5 }

/-- A session that ended at tick 40 having started at tick 10. -/
def endedGame : Game :=
  { sampleGame with
    board := { sampleBoard with gameOver := true },
    started := true, startTicksMs := 10, endTicksMs := 40 }

/-- A session whose board offers a hint coordinate. -/
def hintGame : Game :=
  { sampleGame with board := { sampleBoard with hintCoords := some (2, 3) } }

/-- A session with more flags than mines. -/
def overflagGame : Game :=
  { sampleGame with board := { sampleBoard with flaggedCount := 99 } }

/-- C2: every `set_difficulty(cols, rows, mines)` call rewrites the
difficulty configuration to the given triple (so `(16, 16, 40)` for the
NORMAL tier yields `columns = 16, rows = 16, mine_count = 40`),
recomputes the window geometry from the fixed margins and cell size,
installs a newly constructed Grid Model for those dimensions, and fully
resets the session state: `started = false`, both tick stamps cleared,
highlight set empty with expiry 0. -/
theorem setDifficulty_resets_session (mkBoard : Nat → Nat → Nat → Board)
    (g : Game) (cols rows mines : Nat) :
    (Game.setDifficulty mkBoard g cols rows mines).cfg.cols = cols ∧
    (Game.setDifficulty mkBoard g cols rows mines).cfg.rows = rows ∧
    (Game.setDifficulty mkBoard g cols rows mines).cfg.numMines = mines ∧
    (Game.setDifficulty mkBoard g cols rows mines).cfg.width =
      g.cfg.marginLeft + cols * g.cfg.cellSize + g.cfg.marginRight ∧
    (Game.setDifficulty mkBoard g cols rows mines).cfg.height =
      g.cfg.marginTop + rows * g.cfg.cellSize + g.cfg.marginBottom ∧
    (Game.setDifficulty mkBoard g cols rows mines).board = mkBoard cols rows mines ∧
    (Game.setDifficulty mkBoard g cols rows mines).started = false ∧
    (Game.setDifficulty mkBoard g cols rows mines).startTicksMs = 0 ∧
    (Game.setDifficulty mkBoard g cols rows mines).endTicksMs = 0 ∧
    (Game.setDifficulty mkBoard g cols rows mines).highlightTargets = ∅ ∧
    (Game.setDifficulty mkBoard g cols rows mines).highlightUntilMs = 0 :=
  ⟨rfl, rfl, rfl, rfl, rfl, rfl, rfl, rfl, rfl, rfl, rfl⟩

/-- C10: a tertiary-button click never touches the session clock —
`started`, `start_ticks_ms`, `end_ticks_ms` are unchanged — and never
mutates the Grid Model, whether or not the position resolves to a valid
cell; in particular a neighbor preview on a session that has not started
does not start the timer. -/
theorem middle_click_preserves_clock_and_board
    (revealFn toggleFn : Board → Int → Int → Board) (g : Game) (now : Nat)
    (x y : Int) :
    (handleMouse revealFn toggleFn g now x y Button.middle).started = g.started ∧
    (handleMouse revealFn toggleFn g now x y Button.middle).startTicksMs = g.startTicksMs ∧
    (handleMouse revealFn toggleFn g now x y Button.middle).endTicksMs = g.endTicksMs ∧
    (handleMouse revealFn toggleFn g now x y Button.middle).board = g.board := by
  unfold handleMouse
  by_cases h : (posToGrid g x y).1 = -1
  · simp [h]
  · simp [h]

/-- C7: pressing the hint key when the board returns no hint coordinate
leaves the whole session state — in particular the highlight set and its
expiry — exactly as it was; when a coordinate is returned, the highlight
set becomes that singleton and the expiry becomes
`now + highlight_duration_ms`. -/
theorem hint_key_highlight (mkBoard : Nat → Nat → Nat → Board) (g : Game)
    (now : Nat) :
    (g.board.hintCoords = none → Game.handleKey mkBoard g now Key.h = g) ∧
    (∀ c : Int × Int, g.board.hintCoords = some c →
      (Game.handleKey mkBoard g now Key.h).highlightTargets = {c} ∧
      (Game.handleKey mkBoard g now Key.h).highlightUntilMs =
        now + g.cfg.highlightDurationMs) := by
  constructor
  · intro h
    unfold Game.handleKey
    rw [h]
  · intro c h
    unfold Game.handleKey
    rw [h]
    exact ⟨rfl, rfl⟩

/-- Witness for C7 at concrete sessions: `sampleGame` offers no hint and
is left untouched; `hintGame` offers `(2, 3)` and gets the singleton
highlight with expiry `100 + 1500`. -/
theorem hint_key_highlight_witness :
    Game.handleKey sampleMkBoard sampleGame 100 Key.h = sampleGame ∧
    (Game.handleKey sampleMkBoard hintGame 100 Key.h).highlightTargets =
      {((2 : Int), (3 : Int))} ∧
    (Game.handleKey sampleMkBoard hintGame 100 Key.h).highlightUntilMs = 1600 :=
  ⟨(hint_key_highlight sampleMkBoard sampleGame 100).1 rfl,
   ((hint_key_highlight sampleMkBoard hintGame 100).2 (2, 3) rfl).1,
   ((hint_key_highlight sampleMkBoard hintGame 100).2 (2, 3) rfl).2⟩

/-- C8: the remaining-mine figure of every frame is
`max(0, mine_count - flagged_count())`: it is never negative, equals the
plain difference while the flag count does not exceed the mine count, and
is exactly 0 as soon as the flag count exceeds the mine count. -/
theorem remaining_mines_clamped (g : Game) :
    0 ≤ g.remainingMines ∧
    (g.board.flaggedCount ≤ g.cfg.numMines →
      g.remainingMines = (g.cfg.numMines : Int) - (g.board.flaggedCount : Int)) ∧
    (g.cfg.numMines < g.board.flaggedCount → g.remainingMines = 0) := by
  unfold Game.remainingMines
  refine ⟨le_max_left 0 _, fun h => ?_, fun h => ?_⟩
  · have h0 : (0 : Int) ≤ (g.cfg.numMines : Int) - (g.board.flaggedCount : Int) := by
      have := Int.ofNat_le.mpr h
      omega
    exact max_eq_right h0
  · have h0 : (g.cfg.numMines : Int) - (g.board.flaggedCount : Int) ≤ 0 := by
      have := Int.ofNat_le.mpr (Nat.le_of_lt h)
      omega
    exact max_eq_left h0

/-- Witness for C8 at concrete sessions: the fresh EASY session shows
`10 - 0 = 10`; the session with 99 flags against 10 mines shows 0, not a
negative number. -/
theorem remaining_mines_clamped_witness :
    sampleGame.board.flaggedCount ≤ sampleGame.cfg.numMines ∧
    sampleGame.remainingMines = (10 : Int) - (0 : Int) ∧
    overflagGame.cfg.numMines < overflagGame.board.flaggedCount ∧
    overflagGame.remainingMines = 0 :=
  ⟨by decide, (remaining_mines_clamped sampleGame).2.1 (by decide),
   by decide, (remaining_mines_clamped overflagGame).2.2 (by decide)⟩

/-- C4: on any read performed strictly after the shared expiry tick, the
highlight set is observably empty: no cell whatsoever is rendered
highlighted, and the physical clearing pass of `draw` leaves the set
empty, whether or not it still held coordinates. -/
theorem highlight_empty_after_expiry (g : Game) (now : Nat)
    (h : g.highlightUntilMs < now) :
    (∀ c r : Int, g.cellHighlighted now c r = false) ∧
    (g.drawClearExpired now).highlightTargets = ∅ := by
  constructor
  · intro c r
    unfold Game.cellHighlighted
    have hle : ¬ now ≤ g.highlightUntilMs := Nat.not_le.mpr h
    simp [hle]
  · unfold Game.drawClearExpired
    by_cases hne : g.highlightTargets = ∅
    · split
      · rfl
      · exact hne
    · rw [if_pos ⟨h, hne⟩]

/-- Witness for C4 at a concrete session: `expiredGame` still physically
holds `(1, 1)` with expiry 5; read at tick 6, cell `(1, 1)` is not
highlighted and the clearing pass empties the set. -/
theorem highlight_empty_after_expiry_witness :
    expiredGame.highlightUntilMs < 6 ∧
    expiredGame.cellHighlighted 6 1 1 = false ∧
    (expiredGame.drawClearExpired 6).highlightTargets = ∅ :=
  ⟨by decide,
   (highlight_empty_after_expiry expiredGame 6 (by decide)).1 1 1,
   (highlight_empty_after_expiry expiredGame 6 (by decide)).2⟩

/-- C3: a primary-button click resolving to a valid cell leaves the
session started with the start stamp taken at the click when the session
had not started, keeps the existing start stamp on every later
primary-button click, and in both cases forwards `reveal(col, row)` to
the Grid Model without touching the end stamp. -/
theorem left_click_starts_clock_once
    (revealFn toggleFn : Board → Int → Int → Board) (g : Game) (now : Nat)
    (x y col row : Int)
    (hpos : posToGrid g x y = (col, row)) (hvalid : col ≠ -1) :
    (handleMouse revealFn toggleFn g now x y Button.left).started = true ∧
    (handleMouse revealFn toggleFn g now x y Button.left).startTicksMs =
      (if g.started = true then g.startTicksMs else now) ∧
    (handleMouse revealFn toggleFn g now x y Button.left).board =
      revealFn g.board col row ∧
    (handleMouse revealFn toggleFn g now x y Button.left).endTicksMs = g.endTicksMs := by
  cases hs : g.started <;> simp [handleMouse, hpos, hvalid, hs]

/-- Witness for C3 at a concrete session: pixel (40, 80) of the EASY
layout is cell (1, 1); clicking there at tick 777 on the fresh session
starts the clock at 777 and forwards the reveal. -/
theorem left_click_starts_clock_once_witness :
    posToGrid sampleGame 40 80 = (1, 1) ∧ (1 : Int) ≠ -1 ∧
    (handleMouse sampleReveal sampleToggle sampleGame 777 40 80 Button.left).started = true ∧
    (handleMouse sampleReveal sampleToggle sampleGame 777 40 80 Button.left).startTicksMs =
      (if sampleGame.started = true then sampleGame.startTicksMs else 777) ∧
    (handleMouse sampleReveal sampleToggle sampleGame 777 40 80 Button.left).board =
      sampleReveal sampleGame.board 1 1 := by
  have h := left_click_starts_clock_once sampleReveal sampleToggle sampleGame 777
    40 80 1 1 (by decide) (by decide)
  exact ⟨by decide, by decide, h.1, h.2.1, h.2.2.1⟩

/-- C6: a click at a position resolving to the invalid sentinel performs
no action at all — the session, its highlight set included, is unchanged
for every button.  At a valid cell, a primary click clears the highlight
set and forwards `reveal`, a secondary click clears it and forwards
`toggle_flag` (leaving the expiry alone), and a tertiary click replaces
the set with the unrevealed neighbors of the cell and arms a fresh
expiry. -/
theorem handleMouse_click_effects
    (revealFn toggleFn : Board → Int → Int → Board) (g : Game) (now : Nat)
    (x y : Int) :
    (∀ b : Button, (posToGrid g x y).1 = -1 →
      handleMouse revealFn toggleFn g now x y b = g) ∧
    (∀ col row : Int, posToGrid g x y = (col, row) → col ≠ -1 →
      (handleMouse revealFn toggleFn g now x y Button.left).highlightTargets = ∅ ∧
      (handleMouse revealFn toggleFn g now x y Button.left).board =
        revealFn g.board col row ∧
      (handleMouse revealFn toggleFn g now x y Button.right).highlightTargets = ∅ ∧
      (handleMouse revealFn toggleFn g now x y Button.right).board =
        toggleFn g.board col row ∧
      (handleMouse revealFn toggleFn g now x y Button.right).highlightUntilMs =
        g.highlightUntilMs ∧
      (handleMouse revealFn toggleFn g now x y Button.middle).highlightTargets =
        (g.board.neighbors col row).filter
          (fun p => (g.board.cellAt p.1 p.2).isRevealed = false) ∧
      (handleMouse revealFn toggleFn g now x y Button.middle).highlightUntilMs =
        now + g.cfg.highlightDurationMs) := by
  constructor
  · intro b hb
    simp [handleMouse, hb]
  · intro col row hpos hvalid
    cases hs : g.started <;> simp [handleMouse, hpos, hvalid, hs]

/-- Witness for C6 at a concrete session: pixel (0, 0) is outside the
field, so a secondary click there is a no-op on a session with a live
highlight; pixel (40, 80) is cell (1, 1), where the three buttons act as
stated. -/
theorem handleMouse_click_effects_witness :
    handleMouse sampleReveal sampleToggle expiredGame 5 0 0 Button.right = expiredGame ∧
    (handleMouse sampleReveal sampleToggle sampleGame 5 40 80 Button.left).highlightTargets = ∅ ∧
    (handleMouse sampleReveal sampleToggle sampleGame 5 40 80 Button.right).board =
      sampleToggle sampleGame.board 1 1 ∧
    (handleMouse sampleReveal sampleToggle sampleGame 5 40 80 Button.middle).highlightUntilMs =
      5 + sampleGame.cfg.highlightDurationMs := by
  have hvalid := (handleMouse_click_effects sampleReveal sampleToggle sampleGame 5 40 80).2
    1 1 (by decide) (by decide)
  exact ⟨(handleMouse_click_effects sampleReveal sampleToggle expiredGame 5 0 0).1
      Button.right (by decide),
    hvalid.1, hvalid.2.2.2.1, hvalid.2.2.2.2.2.2⟩

/-- C9: `pos_to_grid` never returns a mixed pair: its result is either
exactly the sentinel `(-1, -1)` or a pair whose column and row are both
within the live board's bounds, so the mouse handler's test of the
column component alone rejects every invalid position. -/
theorem posToGrid_sentinel_or_in_bounds (g : Game) (x y : Int) :
    posToGrid g x y = (-1, -1) ∨
    (0 ≤ (posToGrid g x y).1 ∧ (posToGrid g x y).1 < (g.board.cols : Int) ∧
     0 ≤ (posToGrid g x y).2 ∧ (posToGrid g x y).2 < (g.board.rows : Int)) := by
  unfold posToGrid
  split
  · exact Or.inl rfl
  · split
    · exact Or.inl rfl
    · dsimp only
      split
      next h => right; simpa using h
      next h => exact Or.inl rfl

/-- The playing-field test unfolded to its four comparisons. -/
theorem inPlayRect_iff (cfg : Config) (x y : Int) :
    inPlayRect cfg x y = true ↔
    (((cfg.marginLeft : Int) ≤ x ∧ x < (cfg.width : Int) - (cfg.marginRight : Int)) ∧
     ((cfg.marginTop : Int) ≤ y ∧ y < (cfg.height : Int) - (cfg.marginBottom : Int))) := by
  unfold inPlayRect
  simp [and_assoc]

/-- C5: when the window geometry matches the current difficulty (the
fixed margins plus the grid extent, as `set_difficulty` establishes) and
the live board has the configured dimensions, `pos_to_grid` returns the
invalid sentinel for every position outside the playing-field rectangle,
and for every position inside it a coordinate with
`0 ≤ col < columns` and `0 ≤ row < rows` of the live board. -/
theorem posToGrid_inside_outside (g : Game)
    (hcell : 0 < g.cfg.cellSize)
    (hw : g.cfg.width = g.cfg.marginLeft + g.cfg.cols * g.cfg.cellSize + g.cfg.marginRight)
    (hh : g.cfg.height = g.cfg.marginTop + g.cfg.rows * g.cfg.cellSize + g.cfg.marginBottom)
    (hbc : g.board.cols = g.cfg.cols) (hbr : g.board.rows = g.cfg.rows)
    (x y : Int) :
    (inPlayRect g.cfg x y = false → posToGrid g x y = (-1, -1)) ∧
    (inPlayRect g.cfg x y = true →
      0 ≤ (posToGrid g x y).1 ∧ (posToGrid g x y).1 < (g.board.cols : Int) ∧
      0 ≤ (posToGrid g x y).2 ∧ (posToGrid g x y).2 < (g.board.rows : Int)) := by
  have hcs : (0 : Int) < (g.cfg.cellSize : Int) := by exact_mod_cast hcell
  constructor
  · intro hfalse
    unfold posToGrid
    by_cases hx : ((g.cfg.marginLeft : Int) ≤ x ∧
        x < (g.cfg.width : Int) - (g.cfg.marginRight : Int))
    · by_cases hy : ((g.cfg.marginTop : Int) ≤ y ∧
          y < (g.cfg.height : Int) - (g.cfg.marginBottom : Int))
      · exact absurd ((inPlayRect_iff g.cfg x y).mpr ⟨hx, hy⟩)
          (by simp [hfalse])
      · rw [if_neg (not_not_intro hx), if_pos hy]
    · rw [if_pos hx]
  · intro htrue
    obtain ⟨hx, hy⟩ := (inPlayRect_iff g.cfg x y).mp htrue
    have hx0 : (0 : Int) ≤ x - (g.cfg.marginLeft : Int) := by omega
    have hy0 : (0 : Int) ≤ y - (g.cfg.marginTop : Int) := by omega
    have hwx : x - (g.cfg.marginLeft : Int) < (g.cfg.cols : Int) * (g.cfg.cellSize : Int) := by
      have hcast : (g.cfg.width : Int) - (g.cfg.marginRight : Int) =
          (g.cfg.marginLeft : Int) + (g.cfg.cols : Int) * (g.cfg.cellSize : Int) := by
        rw [hw]; push_cast; ring
      omega
    have hhy : y - (g.cfg.marginTop : Int) < (g.cfg.rows : Int) * (g.cfg.cellSize : Int) := by
      have hcast : (g.cfg.height : Int) - (g.cfg.marginBottom : Int) =
          (g.cfg.marginTop : Int) + (g.cfg.rows : Int) * (g.cfg.cellSize : Int) := by
        rw [hh]; push_cast; ring
      omega
    have hcol0 : 0 ≤ (x - (g.cfg.marginLeft : Int)).fdiv (g.cfg.cellSize : Int) := by
      rw [Int.fdiv_eq_ediv _ (le_of_lt hcs)]
      exact Int.ediv_nonneg hx0 (le_of_lt hcs)
    have hrow0 : 0 ≤ (y - (g.cfg.marginTop : Int)).fdiv (g.cfg.cellSize : Int) := by
      rw [Int.fdiv_eq_ediv _ (le_of_lt hcs)]
      exact Int.ediv_nonneg hy0 (le_of_lt hcs)
    have hcollt : (x - (g.cfg.marginLeft : Int)).fdiv (g.cfg.cellSize : Int) <
        (g.cfg.cols : Int) := by
      rw [Int.fdiv_eq_ediv _ (le_of_lt hcs)]
      exact (Int.ediv_lt_iff_lt_mul hcs).mpr hwx
    have hrowlt : (y - (g.cfg.marginTop : Int)).fdiv (g.cfg.cellSize : Int) <
        (g.cfg.rows : Int) := by
      rw [Int.fdiv_eq_ediv _ (le_of_lt hcs)]
      exact (Int.ediv_lt_iff_lt_mul hcs).mpr hhy
    have hbc1 : (g.board.cols : Int) = (g.cfg.cols : Int) := by exact_mod_cast hbc
    have hbr1 : (g.board.rows : Int) = (g.cfg.rows : Int) := by exact_mod_cast hbr
    unfold posToGrid
    rw [if_neg (not_not_intro hx), if_neg (not_not_intro hy)]
    dsimp only
    rw [if_pos ⟨hcol0, by omega, hrow0, by omega⟩]
    exact ⟨hcol0, by omega, hrow0, by omega⟩

/-- Witness for C5 at the concrete EASY layout (margins 10/10/50/10,
cell size 30, 9×9 board, window 290×330), evaluated at pixel (40, 80). -/
theorem posToGrid_inside_outside_witness :
    0 < sampleGame.cfg.cellSize ∧
    sampleGame.cfg.width = sampleGame.cfg.marginLeft +
      sampleGame.cfg.cols * sampleGame.cfg.cellSize + sampleGame.cfg.marginRight ∧
    sampleGame.cfg.height = sampleGame.cfg.marginTop +
      sampleGame.cfg.rows * sampleGame.cfg.cellSize + sampleGame.cfg.marginBottom ∧
    sampleGame.board.cols = sampleGame.cfg.cols ∧
    sampleGame.board.rows = sampleGame.cfg.rows ∧
    ((inPlayRect sampleGame.cfg 40 80 = false →
        posToGrid sampleGame 40 80 = (-1, -1)) ∧
      (inPlayRect sampleGame.cfg 40 80 = true →
        0 ≤ (posToGrid sampleGame 40 80).1 ∧
        (posToGrid sampleGame 40 80).1 < (sampleGame.board.cols : Int) ∧
        0 ≤ (posToGrid sampleGame 40 80).2 ∧
        (posToGrid sampleGame 40 80).2 < (sampleGame.board.rows : Int))) :=
  ⟨by decide, by decide, by decide, by decide, by decide,
   posToGrid_inside_outside sampleGame (by decide) (by decide) (by decide)
     (by decide) (by decide) 40 80⟩

/-- C1 counterexample: the code stores the absent end stamp as the tick
value 0, so a session whose board reports `game_over` while the tick
counter still reads 0 has its end stamp "set" to 0 — indistinguishable
from absent.  The end check of the next frame (tick 7) fires a second
time, and elapsed-time queries after the first set (ticks 5 and 9) keep
growing instead of returning the value computed at the instant of the
set (0 − 0 = 0). -/
theorem end_check_at_tick_zero_not_frozen :
    (overGame.board.gameOver || overGame.board.win) = true ∧
    overGame.started = true ∧
    overGame.endTicksMs = 0 ∧
    (Game.endCheck overGame 0).endTicksMs = 0 ∧
    (Game.endCheck overGame 0).elapsedMs 5 = 5 ∧
    (Game.endCheck overGame 0).elapsedMs 9 = 9 ∧
    (Game.endCheck (Game.endCheck overGame 0) 7).endTicksMs = 7 := by
  decide

/-- C1 (amended): once the end stamp holds a nonzero tick, the per-frame
end check never fires again — the session state is left untouched — and
every subsequent elapsed-time query, at whatever tick it occurs, returns
`end_ticks_ms - start_ticks_ms`, the value computed at the instant the
stamp was set. -/
theorem end_time_nonzero_set_once_frozen (g : Game)
    (hstart : g.started = true) (hend : g.endTicksMs ≠ 0) :
    (∀ t : Nat, Game.endCheck g t = g) ∧
    (∀ t : Nat, g.elapsedMs t = (g.endTicksMs : Int) - (g.startTicksMs : Int)) := by
  have hbeq : (g.endTicksMs == 0) = false := by simpa using hend
  constructor
  · intro t
    unfold Game.endCheck
    simp [hbeq]
  · intro t
    unfold Game.elapsedMs
    simp [hstart, hend]

/-- Witness for the amended C1: a session that started at tick 10 and
ended at tick 40: the end check at tick 99 is a no-op, and a query at
tick 12345 still answers 40 − 10. -/
theorem end_time_nonzero_set_once_frozen_witness :
    endedGame.started = true ∧ endedGame.endTicksMs ≠ 0 ∧
    Game.endCheck endedGame 99 = endedGame ∧
    endedGame.elapsedMs 12345 =
      (endedGame.endTicksMs : Int) - (endedGame.startTicksMs : Int) :=
  ⟨rfl, by decide,
   (end_time_nonzero_set_once_frozen endedGame rfl (by decide)).1 99,
   (end_time_nonzero_set_once_frozen endedGame rfl (by decide)).2 12345⟩

end Minesweeper
